import Mathlib

/-!
Verification of the journal-entry derivation engine of the expense-management
server (`server.js`).  The JavaScript functions `extractAmountFromOCR`,
`extractDateFromOCR`, `createFallbackJournalEntry` and `generateJournalEntry`
are embedded shallowly:

* JavaScript/JSON values are modelled by the inductive `Json`; JSON numbers are
  kept as exact decimals (`JNum`, mantissa times a power of ten), matching the
  decimal literals that occur in JSON text.  Monetary arithmetic is carried out
  in `ℚ`; the IEEE-754 doubles of the runtime are idealised as exact rationals
  (all tolerances in the specification are far above double rounding error).
* A JavaScript number that is NaN is modelled as `none : Option ℚ`; the JS
  operations used by the engine (division, subtraction, `toFixed`, `Math.max`,
  comparison with 0) propagate NaN exactly as modelled by the lifted
  operations below.
* `JSON.stringify` and `JSON.parse` are implemented on `List Char`, as are the
  literal regular expressions of the source, with JavaScript `match`/`replace`
  semantics (leftmost scan, greedy with the bounded backtracking that the
  concrete patterns of the source need, non-overlapping continuation).
* The external effects of `generateJournalEntry` are made explicit parameters:
  `resp : Option String` is the outcome of the OpenAI chat call (`none` for a
  transport error or non-success response, `some r` for a response with text
  `r`), and `now : String` is `new Date().toLocaleDateString("en-GB")` at the
  moment of the call.  A thrown JavaScript exception is `Except.error ()`.
-/

/-! ### Characters and strings (ASCII fragment used by the engine) -/

/-- ASCII lower-casing of one character, as `String.prototype.toLowerCase`
acts on the ASCII range (the only range the engine's inputs exercise). -/
def jsToLowerChar (c : Char) : Char :=
  if 'A' ≤ c && c ≤ 'Z' then Char.ofNat (c.toNat + 32) else c

/-- `toLowerCase` over a character list. -/
def lowerList : List Char → List Char
  | [] => []
  | c :: cs => jsToLowerChar c :: lowerList cs

/-- Whitespace class of the JavaScript regex `\s` (ASCII part). -/
def jsWsChar (c : Char) : Bool :=
  c = ' ' || c = '\t' || c = '\n' || c = '\r' || c = '\x0b' || c = '\x0c'

/-- Whitespace accepted between tokens by `JSON.parse`. -/
def jsonWsChar (c : Char) : Bool :=
  c = ' ' || c = '\t' || c = '\n' || c = '\r'

def dropJsonWs : List Char → List Char
  | c :: cs => if jsonWsChar c then dropJsonWs cs else c :: cs
  | [] => []

def dropJsWs : List Char → List Char
  | c :: cs => if jsWsChar c then dropJsWs cs else c :: cs
  | [] => []

/-- Does `needle` occur as a contiguous substring of `hay`?  This is
`String.prototype.includes` on the underlying characters. -/
def containsSub (hay needle : List Char) : Bool :=
  match hay with
  | [] => needle.isEmpty
  | _ :: tl => needle.isPrefixOf hay || containsSub tl needle

/-- `String.prototype.trim` (ASCII whitespace, both ends). -/
def jsTrim (cs : List Char) : List Char :=
  (dropJsWs ((dropJsWs cs.reverse).reverse))

/-- Drop every occurrence of the characters in `bad`; this is
`replace(/[c...]/g, "")` for a character class. -/
def removeChars (bad : List Char) : List Char → List Char
  | [] => []
  | c :: cs => if bad.contains c then removeChars bad cs else c :: removeChars bad cs

/-! ### JSON values -/

/-- A JSON number kept as the exact decimal `mantissa / 10 ^ exp`.  The engine
never exercises double rounding, so this exact form is a faithful model of the
numbers `JSON.parse` produces and `JSON.stringify` prints. -/
structure JNum where
  mantissa : Int
  exp : Nat
deriving DecidableEq

/-- The rational value of a decimal number. -/
def JNum.toRat (n : JNum) : ℚ := (n.mantissa : ℚ) / (10 : ℚ) ^ n.exp

/-- JavaScript/JSON values as the OCR collaborator and `JSON.parse` produce
them: an untyped tree of null, booleans, numbers, strings, arrays and objects
(with insertion-ordered fields). -/
inductive Json where
  | null
  | bool (b : Bool)
  | num (n : JNum)
  | str (s : String)
  | arr (elems : List Json)
  | obj (fields : List (String × Json))

def lookupFields : List (String × Json) → String → Option Json
  | [], _ => none
  | (k', v) :: fs, k => if k' = k then some v else lookupFields fs k

/-- Property access `j.k` for a string key: defined on objects, `undefined`
(modelled `none`) elsewhere. -/
def Json.lookup (j : Json) (k : String) : Option Json :=
  match j with
  | .obj fs => lookupFields fs k
  | _ => none

/-- JavaScript truthiness of a value (`false`, `0`, `""`, `null` are falsy;
every object, array, non-zero number and non-empty string is truthy). -/
def jsTruthy : Json → Bool
  | .null => false
  | .bool b => b
  | .num n => n.mantissa ≠ 0
  | .str s => !s.isEmpty
  | .arr _ => true
  | .obj _ => true

/-! ### `JSON.stringify` -/

mutual
/-- A structural size of a JSON tree, used as recursion fuel for the
serializer (it dominates the recursion depth). -/
def jsonFuel : Json → Nat
  | .null => 1
  | .bool _ => 1
  | .num _ => 1
  | .str _ => 1
  | .arr es => 1 + jsonFuelItems es
  | .obj fs => 1 + jsonFuelFields fs

def jsonFuelItems : List Json → Nat
  | [] => 1
  | e :: es => 1 + jsonFuel e + jsonFuelItems es

def jsonFuelFields : List (String × Json) → Nat
  | [] => 1
  | (_, v) :: fs => 1 + jsonFuel v + jsonFuelFields fs
end

/-- Decimal digits of a natural number, most significant first (fuelled to
stay structurally recursive; `fuel ≥ n` always suffices). -/
def natDigitsF : Nat → Nat → List Char
  | 0, _ => []
  | f + 1, n =>
    if n < 10 then [Char.ofNat (48 + n)]
    else natDigitsF f (n / 10) ++ [Char.ofNat (48 + n % 10)]

def natChars (n : Nat) : List Char := natDigitsF (n + 1) n

/-- Strip factors of ten shared by the fractional part, so that the decimal
prints without trailing zeros, as JavaScript prints doubles. -/
def stripTrailingZeros : Nat → Int → Nat → Int × Nat
  | 0, m, e => (m, e)
  | _ + 1, m, 0 => (m, 0)
  | f + 1, m, e + 1 =>
    if m % 10 = 0 then stripTrailingZeros f (m / 10) e else (m, e + 1)

/-- Print a decimal number the way JavaScript prints the corresponding double
(shortest decimal form; integers without a decimal point).  Exponential
notation for extreme magnitudes is not exercised by the engine. -/
def jnumChars (n : JNum) : List Char :=
  let (m, e) := stripTrailingZeros n.exp n.mantissa n.exp
  let a := m.natAbs
  let sign : List Char := if m < 0 then ['-'] else []
  if e = 0 then sign ++ natChars a
  else
    let p := 10 ^ e
    sign ++ natChars (a / p) ++ '.' :: (natChars (a % p + p)).tail

/-- Escape one character for a JSON string literal as `JSON.stringify` does. -/
def escapeJsonChar (c : Char) : List Char :=
  if c = '"' then ['\\', '"']
  else if c = '\\' then ['\\', '\\']
  else if c = '\n' then ['\\', 'n']
  else if c = '\t' then ['\\', 't']
  else if c = '\r' then ['\\', 'r']
  else if c = '\x08' then ['\\', 'b']
  else if c = '\x0c' then ['\\', 'f']
  else if c.toNat < 32 then
    ['\\', 'u', '0', '0',
     Char.ofNat (if c.toNat / 16 < 10 then 48 + c.toNat / 16 else 87 + c.toNat / 16),
     Char.ofNat (if c.toNat % 16 < 10 then 48 + c.toNat % 16 else 87 + c.toNat % 16)]
  else [c]

def escapeJsonString (s : String) : List Char :=
  '"' :: s.toList.flatMap escapeJsonChar ++ ['"']

mutual
/-- `JSON.stringify` (compact form, no spacing), fuelled for structural
recursion; `stringifyChars` below supplies sufficient fuel. -/
def stringifyF : Nat → Json → List Char
  | 0, _ => []
  | _ + 1, .null => ['n', 'u', 'l', 'l']
  | _ + 1, .bool true => ['t', 'r', 'u', 'e']
  | _ + 1, .bool false => ['f', 'a', 'l', 's', 'e']
  | _ + 1, .num n => jnumChars n
  | _ + 1, .str s => escapeJsonString s
  | f + 1, .arr es => '[' :: stringifyItemsF f es ++ [']']
  | f + 1, .obj fs => '{' :: stringifyFieldsF f fs ++ ['}']

def stringifyItemsF : Nat → List Json → List Char
  | 0, _ => []
  | _ + 1, [] => []
  | f + 1, [e] => stringifyF f e
  | f + 1, e :: es => stringifyF f e ++ ',' :: stringifyItemsF f es

def stringifyFieldsF : Nat → List (String × Json) → List Char
  | 0, _ => []
  | _ + 1, [] => []
  | f + 1, [(k, v)] => escapeJsonString k ++ ':' :: stringifyF f v
  | f + 1, (k, v) :: fs => escapeJsonString k ++ ':' :: stringifyF f v ++ ',' :: stringifyFieldsF f fs
end

/-- `JSON.stringify j` as a character list (`jsonFuel` dominates the recursion
depth, so the fuel never runs out). -/
def stringifyChars (j : Json) : List Char := stringifyF (jsonFuel j) j

/-! ### `JSON.parse` -/

def isDigitChar (c : Char) : Bool := '0' ≤ c && c ≤ '9'

def digitVal (c : Char) : Nat := c.toNat - 48

def takeDigits : List Char → List Char × List Char
  | c :: cs =>
    if isDigitChar c then
      let (ds, r) := takeDigits cs
      (c :: ds, r)
    else ([], c :: cs)
  | [] => ([], [])

def digitsToNat (ds : List Char) : Nat :=
  ds.foldl (fun acc c => acc * 10 + digitVal c) 0

def hexDigitVal (c : Char) : Option Nat :=
  if '0' ≤ c && c ≤ '9' then some (c.toNat - 48)
  else if 'a' ≤ c && c ≤ 'f' then some (c.toNat - 87)
  else if 'A' ≤ c && c ≤ 'F' then some (c.toNat - 55)
  else none

/-- Body of a JSON string literal after the opening quote: returns the decoded
string and the input after the closing quote.  Escapes and the rejection of
raw control characters follow RFC 8259, as `JSON.parse` does. -/
def parseJsonStringBody (acc : List Char) : List Char → Option (String × List Char)
  | '"' :: rest => some (String.mk acc.reverse, rest)
  | '\\' :: 'u' :: a :: b :: c :: d :: rest =>
    match hexDigitVal a, hexDigitVal b, hexDigitVal c, hexDigitVal d with
    | some va, some vb, some vc, some vd =>
      parseJsonStringBody (Char.ofNat (((va * 16 + vb) * 16 + vc) * 16 + vd) :: acc) rest
    | _, _, _, _ => none
  | '\\' :: e :: rest =>
    (match e with
     | '"' => some '"'
     | '\\' => some '\\'
     | '/' => some '/'
     | 'n' => some '\n'
     | 't' => some '\t'
     | 'r' => some '\r'
     | 'b' => some '\x08'
     | 'f' => some '\x0c'
     | _ => none).bind fun ch => parseJsonStringBody (ch :: acc) rest
  | c :: rest => if c.toNat < 32 then none else parseJsonStringBody (c :: acc) rest
  | [] => none

/-- A JSON number literal (grammar of RFC 8259: `-?(0|[1-9][0-9]*)` with
optional fraction and exponent), as the exact decimal it denotes. -/
def parseJsonNumber (cs : List Char) : Option (JNum × List Char) :=
  let (neg, cs1) := match cs with | '-' :: r => (true, r) | _ => (false, cs)
  match takeDigits cs1 with
  | ([], _) => none
  | (intDs, cs2) =>
    if intDs.length > 1 && intDs.headD '0' = '0' then none
    else
      let (fracDs, cs3) :=
        match cs2 with
        | '.' :: r =>
          match takeDigits r with
          | ([], _) => ([], cs2)
          | (ds, r') => (ds, r')
        | _ => ([], cs2)
      if cs3.length < cs2.length || fracDs.isEmpty then
        -- either a fraction was consumed, or there was no '.' at all
        match cs2, fracDs with
        | '.' :: _, [] => none  -- a lone '.' with no digits is rejected
        | _, _ =>
          let (expSign, cs4) :=
            match cs3 with
            | 'e' :: '+' :: r => (some 1, r)
            | 'e' :: '-' :: r => (some (-1), r)
            | 'e' :: r => (some 1, r)
            | 'E' :: '+' :: r => (some 1, r)
            | 'E' :: '-' :: r => (some (-1), r)
            | 'E' :: r => (some 1, r)
            | _ => (none, cs3)
          let mant0 : Int := (digitsToNat intDs * 10 ^ fracDs.length + digitsToNat fracDs : Nat)
          let mant : Int := if neg then -mant0 else mant0
          match expSign with
          | none => some (⟨mant, fracDs.length⟩, cs3)
          | some sgn =>
            match takeDigits cs4 with
            | ([], _) => none
            | (expDs, cs5) =>
              let ev := digitsToNat expDs
              if sgn = 1 then
                if fracDs.length ≤ ev then
                  some (⟨mant * 10 ^ (ev - fracDs.length), 0⟩, cs5)
                else some (⟨mant, fracDs.length - ev⟩, cs5)
              else some (⟨mant, fracDs.length + ev⟩, cs5)
      else none

mutual
/-- One JSON value at the head of the input (leading whitespace already
skipped); returns the value and the remaining input. -/
def parseJsonValueF : Nat → List Char → Option (Json × List Char)
  | 0, _ => none
  | f + 1, cs =>
    match cs with
    | 'n' :: 'u' :: 'l' :: 'l' :: rest => some (.null, rest)
    | 't' :: 'r' :: 'u' :: 'e' :: rest => some (.bool true, rest)
    | 'f' :: 'a' :: 'l' :: 's' :: 'e' :: rest => some (.bool false, rest)
    | '"' :: rest => (parseJsonStringBody [] rest).map fun (s, r) => (.str s, r)
    | '[' :: rest =>
      match dropJsonWs rest with
      | ']' :: r => some (.arr [], r)
      | r => (parseJsonItemsF f r).map fun (es, r') => (.arr es, r')
    | '{' :: rest =>
      match dropJsonWs rest with
      | '}' :: r => some (.obj [], r)
      | r => (parseJsonMembersF f r).map fun (fs, r') => (.obj fs, r')
    | _ => parseJsonNumber cs |>.map fun (n, r) => (.num n, r)

def parseJsonItemsF : Nat → List Char → Option (List Json × List Char)
  | 0, _ => none
  | f + 1, cs =>
    match parseJsonValueF f (dropJsonWs cs) with
    | none => none
    | some (v, rest) =>
      match dropJsonWs rest with
      | ',' :: r =>
        (parseJsonItemsF f r).map fun (es, r') => (v :: es, r')
      | ']' :: r => some ([v], r)
      | _ => none

def parseJsonMembersF : Nat → List Char → Option (List (String × Json) × List Char)
  | 0, _ => none
  | f + 1, cs =>
    match cs with
    | '"' :: rest =>
      match parseJsonStringBody [] rest with
      | none => none
      | some (k, rest1) =>
        match dropJsonWs rest1 with
        | ':' :: rest2 =>
          match parseJsonValueF f (dropJsonWs rest2) with
          | none => none
          | some (v, rest3) =>
            match dropJsonWs rest3 with
            | ',' :: r =>
              match dropJsonWs r with
              | '"' :: _ => (parseJsonMembersF f (dropJsonWs r)).map fun (fs, r') => ((k, v) :: fs, r')
              | _ => none
            | '}' :: r => some ([(k, v)], r)
            | _ => none
        | _ => none
    | _ => none
end

/-- `JSON.parse`: one JSON text, with optional surrounding whitespace and
nothing else; anything more throws (`none`). -/
def jsonParse (s : String) : Option Json :=
  let cs := dropJsonWs s.toList
  match parseJsonValueF (cs.length + 1) cs with
  | some (j, rest) => if (dropJsonWs rest).isEmpty then some j else none
  | none => none

/-! ### The amount scan regex `[\d,]+\.?\d{0,2}` (line 233) -/

def spanCls (p : Char → Bool) : List Char → List Char × List Char
  | c :: cs =>
    if p c then
      let (a, r) := spanCls p cs
      (c :: a, r)
    else ([], c :: cs)
  | [] => ([], [])

def isDigitOrComma (c : Char) : Bool := isDigitChar c || c = ','

/-- One attempt of `[\d,]+\.?\d{0,2}` anchored at the head of the input:
greedy run of digits/commas, optional dot, then up to two digits.  Returns the
matched text and the input after the match. -/
def amountMatchAt (cs : List Char) : Option (List Char × List Char) :=
  match spanCls isDigitOrComma cs with
  | ([], _) => none
  | (run, after) =>
    match after with
    | '.' :: a2 =>
      match a2 with
      | d1 :: d2 :: rest =>
        if isDigitChar d1 then
          if isDigitChar d2 then some (run ++ ['.', d1, d2], rest)
          else some (run ++ ['.', d1], d2 :: rest)
        else some (run ++ ['.'], d1 :: d2 :: rest)
      | [d1] =>
        if isDigitChar d1 then some (run ++ ['.', d1], [])
        else some (run ++ ['.'], [d1])
      | [] => some (run ++ ['.'], [])
    | _ => some (run, after)

/-- `String.prototype.match` with the global amount pattern: all
non-overlapping matches, scanning left to right. -/
def amountScanF : Nat → List Char → List String
  | 0, _ => []
  | _ + 1, [] => []
  | f + 1, c :: cs =>
    match amountMatchAt (c :: cs) with
    | some (m, rest) => String.mk m :: amountScanF f rest
    | none => amountScanF f cs

def amountScan (cs : List Char) : List String := amountScanF cs.length cs

/-! ### `parseFloat` and `Math.max` -/

/-- `parseFloat`: longest numeric prefix after optional whitespace and sign;
no numeric prefix at all gives NaN (`none`).  (The exponent form is not
exercised by the engine's inputs and is not modelled.) -/
def jsParseFloat (cs : List Char) : Option JNum :=
  let cs1 := dropJsWs cs
  let (neg, cs2) :=
    match cs1 with
    | '-' :: r => (true, r)
    | '+' :: r => (false, r)
    | _ => (false, cs1)
  let (intDs, cs3) := spanCls isDigitChar cs2
  let fracDs :=
    match cs3 with
    | '.' :: r => (spanCls isDigitChar r).1
    | _ => []
  if intDs.isEmpty && fracDs.isEmpty then none
  else
    let mant0 : Int := (digitsToNat intDs * 10 ^ fracDs.length + digitsToNat fracDs : Nat)
    some ⟨if neg then -mant0 else mant0, fracDs.length⟩

/-- Order on exact decimals by cross-multiplication; it agrees with the order
of the rational values, and the kernel can evaluate it. -/
def JNum.ble (a b : JNum) : Bool :=
  a.mantissa * (10 : Int) ^ b.exp ≤ b.mantissa * (10 : Int) ^ a.exp

def JNum.maxD (a b : JNum) : JNum := if JNum.ble a b then b else a

/-- `Math.max(...xs)` over a non-empty spread: NaN if any argument is NaN,
otherwise the largest argument. -/
def jsMaxList : List (Option JNum) → Option JNum
  | [] => none
  | [x] => x
  | x :: xs =>
    match x, jsMaxList xs with
    | some a, some b => some (a.maxD b)
    | _, _ => none

/-- Keep only digits and dots: `replace(/[^\d.]/g, "")` (line 224). -/
def keepDigitsDot : List Char → List Char
  | [] => []
  | c :: cs => if isDigitChar c || c = '.' then c :: keepDigitsDot cs else keepDigitsDot cs

/-! ### `extractAmountFromOCR` (lines 207-246) -/

/-- `extractAmountFromOCR`: the amount-resolution ladder of the source —
(1) a truthy numeric `total` field; (2) a truthy numeric `totalAmount` field;
(3) a truthy string `total` field parsed after stripping non-digit/non-dot
characters; (4) every match of the amount regex over the lower-cased
serialization, each parsed with commas removed, combined with `Math.max`
(NaN included, exactly as `Math.max` propagates it); (5) the fixed default
`10.00`.  `none` is a NaN result. -/
def extractAmountFromOCR (ocr : Json) : Option ℚ :=
  let step4 : Option ℚ :=
    let dataStr := lowerList (stringifyChars ocr)
    let ms := amountScan dataStr
    if ms.isEmpty then some 10
    else (jsMaxList (ms.map fun m => jsParseFloat (removeChars [','] m.toList))).map JNum.toRat
  let step3 : Option ℚ :=
    match ocr.lookup "total" with
    | some (.str s) =>
      if s.isEmpty then step4
      else
        match jsParseFloat (keepDigitsDot s.toList) with
        | some v => some v.toRat
        | none => step4
    | _ => step4
  let step2 : Option ℚ :=
    match ocr.lookup "totalAmount" with
    | some (.num n) => if n.mantissa ≠ 0 then some n.toRat else step3
    | _ => step3
  match ocr.lookup "total" with
  | some (.num n) => if n.mantissa ≠ 0 then some n.toRat else step2
  | _ => step2

/-! ### Calendar arithmetic for the JavaScript `Date` model -/

/-- Civil date (day, month, year) from days since the Unix epoch
(Hinnant's algorithm). -/
def civilFromDays (z0 : Int) : Nat × Nat × Nat :=
  let z := z0 + 719468
  let era := z.fdiv 146097
  let doe := (z - era * 146097).toNat
  let yoe := (doe - doe / 1460 + doe / 36524 - doe / 146096) / 365
  let y : Int := era * 400 + yoe
  let doy := doe - (365 * yoe + yoe / 4 - yoe / 100)
  let mp := (5 * doy + 2) / 153
  let d := doy - (153 * mp + 2) / 5 + 1
  let m := if mp < 10 then mp + 3 else mp - 9
  (d, m, (if m ≤ 2 then y + 1 else y).toNat)

/-- Days since the Unix epoch of a civil date (Hinnant's algorithm). -/
def daysFromCivil (y0 : Int) (m d : Nat) : Int :=
  let y := if m ≤ 2 then y0 - 1 else y0
  let era := y.fdiv 400
  let yoe := (y - era * 400).toNat
  let mp := if 2 < m then m - 3 else m + 9
  let doy := (153 * mp + 2) / 5 + d - 1
  let doe := yoe * 365 + yoe / 4 - yoe / 100 + doy
  era * 146097 + (doe : Int) - 719468

/-! ### The JavaScript `Date` constructor, modelled on the value shapes the
engine can reach: millisecond timestamps (numbers, booleans) and strings made
of three numeric fields separated by `/`, `-` or `.`.  Objects and arrays are
modelled as an invalid date; exotic textual formats (month names, time
suffixes) are outside the model, which no claim exercises. -/

def dateSepChar (c : Char) : Bool := c = '/' || c = '-' || c = '.'

/-- Split `digits sep digits sep digits` covering the whole string. -/
def splitDateTriple (cs : List Char) : Option (List Char × List Char × List Char) :=
  match spanCls isDigitChar cs with
  | ([], _) => none
  | (a, s1 :: r2) =>
    if dateSepChar s1 then
      match spanCls isDigitChar r2 with
      | ([], _) => none
      | (b, s2 :: r4) =>
        if dateSepChar s2 then
          match spanCls isDigitChar r4 with
          | ([], _) => none
          | (c, []) => some (a, b, c)
          | (_, _ :: _) => none
        else none
      | (_, []) => none
    else none
  | (_, []) => none

/-- Range-check a date and normalise day overflow by rolling into the next
month, as V8 does for slash-format dates. -/
def mkValidDate (y : Int) (m d : Nat) : Option (Nat × Nat × Nat) :=
  if 1 ≤ m && m ≤ 12 && 1 ≤ d && d ≤ 31 then
    some (civilFromDays (daysFromCivil y m 1 + ((d : Int) - 1)))
  else none

/-- `new Date(string)` for a numeric triple: a 3-or-more-digit first field is
year-first (ISO-like `y-m-d`), otherwise the V8 `m/d/y` reading with the
50-window for two-digit years. -/
def jsDateOfString (s : List Char) : Option (Nat × Nat × Nat) :=
  match splitDateTriple s with
  | none => none
  | some (a, b, c) =>
    if 3 ≤ a.length then mkValidDate (digitsToNat a : Int) (digitsToNat b) (digitsToNat c)
    else
      let nc := digitsToNat c
      let y : Int := if c.length ≤ 2 then (if nc < 50 then 2000 + nc else 1900 + nc) else nc
      mkValidDate y (digitsToNat a) (digitsToNat b)

/-- `new Date(number)`: a millisecond timestamp. -/
def jsDateOfMillis (n : JNum) : Option (Nat × Nat × Nat) :=
  some (civilFromDays (n.mantissa.fdiv (86400000 * (10 : Int) ^ n.exp)))

def jsDateOfJson : Json → Option (Nat × Nat × Nat)
  | .num n => jsDateOfMillis n
  | .str s => jsDateOfString s.toList
  | .bool b => jsDateOfMillis ⟨if b then 1 else 0, 0⟩
  | _ => none

def pad2 (n : Nat) : List Char := if n < 10 then '0' :: natChars n else natChars n

/-- `toLocaleDateString("en-GB")`: `dd/mm/yyyy`. -/
def formatEnGB : Nat × Nat × Nat → String
  | (d, m, y) => String.mk (pad2 d ++ '/' :: pad2 m ++ '/' :: natChars y)

/-! ### The date scan regex `\d{1,2}[\/\-\.]\d{1,2}[\/\-\.]\d{2,4}` (line 271) -/

def takeExactDigits : Nat → List Char → Option (List Char × List Char)
  | 0, cs => some ([], cs)
  | k + 1, c :: cs =>
    if isDigitChar c then (takeExactDigits k cs).map fun (a, r) => (c :: a, r)
    else none
  | _ + 1, [] => none

/-- `\d{2,4}` with nothing after it: greedy, preferring 4 digits, then 3,
then 2. -/
def dateTail2 (cs : List Char) : Option (List Char) :=
  match takeExactDigits 4 cs with
  | some (a, _) => some a
  | none =>
    match takeExactDigits 3 cs with
    | some (a, _) => some a
    | none => (takeExactDigits 2 cs).map Prod.fst

/-- `[\/\-\.]\d{2,4}`. -/
def dateFrom2 (cs : List Char) : Option (List Char) :=
  match cs with
  | s :: r => if dateSepChar s then (dateTail2 r).map (s :: ·) else none
  | [] => none

/-- `\d{1,2}[\/\-\.]\d{2,4}` with the regex backtracking order (two digits
first, then one). -/
def dateMid (cs : List Char) : Option (List Char) :=
  match takeExactDigits 2 cs with
  | some (a, r) =>
    match dateFrom2 r with
    | some t => some (a ++ t)
    | none =>
      match takeExactDigits 1 cs with
      | some (a1, r1) => (dateFrom2 r1).map (a1 ++ ·)
      | none => none
  | none =>
    match takeExactDigits 1 cs with
    | some (a1, r1) => (dateFrom2 r1).map (a1 ++ ·)
    | none => none

/-- `[\/\-\.]\d{1,2}[\/\-\.]\d{2,4}`. -/
def dateAfterFirst (cs : List Char) : Option (List Char) :=
  match cs with
  | s :: r => if dateSepChar s then (dateMid r).map (s :: ·) else none
  | [] => none

/-- The whole date pattern anchored at the head of the input. -/
def dateMatchAt (cs : List Char) : Option (List Char) :=
  match takeExactDigits 2 cs with
  | some (a, r) =>
    match dateAfterFirst r with
    | some t => some (a ++ t)
    | none =>
      match takeExactDigits 1 cs with
      | some (a1, r1) => (dateAfterFirst r1).map (a1 ++ ·)
      | none => none
  | none =>
    match takeExactDigits 1 cs with
    | some (a1, r1) => (dateAfterFirst r1).map (a1 ++ ·)
    | none => none

/-- First match of the date pattern in the input (the source uses only
`dateMatches[0]`). -/
def dateFirstMatchF : Nat → List Char → Option String
  | 0, _ => none
  | _ + 1, [] => none
  | f + 1, c :: cs =>
    match dateMatchAt (c :: cs) with
    | some m => some (String.mk m)
    | none => dateFirstMatchF f cs

def dateFirstMatch (cs : List Char) : Option String := dateFirstMatchF cs.length cs

/-! ### `extractDateFromOCR` (lines 248-285) -/

/-- One structured date field: used only when the field is truthy and
`new Date(field)` is a valid date, otherwise the ladder continues. -/
def dateFieldTry (ocr : Json) (k : String) : Option String :=
  match ocr.lookup k with
  | some v => if jsTruthy v then (jsDateOfJson v).map formatEnGB else none
  | none => none

/-- `extractDateFromOCR`: `date` field, then `purchaseDate` field, then the
first date-shaped substring of the serialized result; `none` models the
`null` return (the caller substitutes the current date). -/
def extractDateFromOCR (ocr : Json) : Option String :=
  match dateFieldTry ocr "date" with
  | some s => some s
  | none =>
    match dateFieldTry ocr "purchaseDate" with
    | some s => some s
    | none =>
      match dateFirstMatch (stringifyChars ocr) with
      | some m => (jsDateOfString m.toList).map formatEnGB
      | none => none

/-! ### Merchant extraction patterns (lines 320-333) -/

def isUpperChar (c : Char) : Bool := 'A' ≤ c && c ≤ 'Z'
def isAlphaChar (c : Char) : Bool := ('A' ≤ c && c ≤ 'Z') || ('a' ≤ c && c ≤ 'z')

/-- Character class `[A-Z\s&]` of the first merchant pattern. -/
def p1Cls (c : Char) : Bool := isUpperChar c || jsWsChar c || c = '&'

/-- Index of the last upper-case character of a list, if any. -/
def lastUpperIdxAux : List Char → Option Nat
  | [] => none
  | c :: cs =>
    match lastUpperIdxAux cs with
    | some j => some (j + 1)
    | none => if isUpperChar c then some 0 else none

/-- `([A-Z][A-Z\s&]+[A-Z])` anchored at the head: an upper-case letter, a
greedy class run, backtracking so that the match ends at the last upper-case
character at offset at least two. -/
def p1MatchAt (cs : List Char) : Option (List Char) :=
  match cs with
  | c0 :: tl =>
    if isUpperChar c0 then
      let run := (spanCls p1Cls tl).1
      match lastUpperIdxAux run with
      | some j => if 1 ≤ j then some (c0 :: run.take (j + 1)) else none
      | none => none
    else none
  | [] => none

/-- `"([^"]+)"` anchored at the head (the match includes both quotes). -/
def p2MatchAt (cs : List Char) : Option (List Char) :=
  match cs with
  | '"' :: tl =>
    match spanCls (fun c => c != '"') tl with
    | ([], _) => none
    | (run, d :: _) => if d = '"' then some ('"' :: run ++ ['"']) else none
    | (_, []) => none
  | _ => none

/-- Character class `[A-Za-z\s]` of the third merchant pattern. -/
def p3Cls (c : Char) : Bool := isAlphaChar c || jsWsChar c

/-- `^([A-Z][A-Za-z\s]+)` at one line start. -/
def p3MatchAt (cs : List Char) : Option (List Char) :=
  match cs with
  | c0 :: tl =>
    if isUpperChar c0 then
      match spanCls p3Cls tl with
      | ([], _) => none
      | (run, _) => some (c0 :: run)
    else none
  | [] => none

/-- Generic first-match scan of an anchored pattern over every position. -/
def firstMatchF (matchAt : List Char → Option (List Char)) : Nat → List Char → Option String
  | 0, _ => none
  | _ + 1, [] => none
  | f + 1, c :: cs =>
    match matchAt (c :: cs) with
    | some m => some (String.mk m)
    | none => firstMatchF matchAt f cs

def dropToAfterNL : List Char → Option (List Char)
  | [] => none
  | '\n' :: r => some r
  | _ :: r => dropToAfterNL r

/-- First match of the multiline-anchored third pattern: positions at the
start of the input or just after a newline. -/
def p3ScanF : Nat → List Char → Option String
  | 0, _ => none
  | f + 1, cs =>
    match p3MatchAt cs with
    | some m => some (String.mk m)
    | none =>
      match dropToAfterNL cs with
      | some rest => p3ScanF f rest
      | none => none

/-- The length window and clean-up of lines 328-329: a first match longer than
3 and shorter than 50 characters is accepted, quotes are removed and the
result trimmed. -/
def merchantCandidate (m : Option String) : Option String :=
  match m with
  | some s =>
    if 3 < s.length && s.length < 50 then
      some (String.mk (jsTrim (removeChars [Char.ofNat 39, '"'] s.toList)))
    else none
  | none => none

/-- The pattern loop of lines 320-334 over the serialized OCR result (original
case): first pattern whose first match fits the window wins; otherwise the
sentinel. -/
def merchantFromPatterns (cs : List Char) : String :=
  match merchantCandidate (firstMatchF p1MatchAt cs.length cs) with
  | some s => s
  | none =>
    match merchantCandidate (firstMatchF p2MatchAt cs.length cs) with
    | some s => s
    | none =>
      match merchantCandidate (p3ScanF cs.length cs) with
      | some s => s
      | none => "Unknown Merchant"

def merchantFieldValue2 (ocr : Json) : Option Json :=
  match ocr.lookup "merchantName" with
  | some v => if jsTruthy v then some v else
      match ocr.lookup "vendor" with
      | some w => if jsTruthy w then some w else none
      | none => none
  | none =>
    match ocr.lookup "vendor" with
    | some w => if jsTruthy w then some w else none
    | none => none

/-- `ocrData.establishment || ocrData.merchantName || ocrData.vendor`. -/
def merchantFieldValue (ocr : Json) : Option Json :=
  match ocr.lookup "establishment" with
  | some v => if jsTruthy v then some v else merchantFieldValue2 ocr
  | none => merchantFieldValue2 ocr

/-- Merchant resolution (lines 310-337): a truthy structured field is used as
is — and if it is not a string, `merchant.toLowerCase()` on line 337 throws a
TypeError, which `Except.error ()` models; with no truthy structured field the
pattern search over the serialization supplies a string (or the sentinel). -/
def resolveMerchant (ocr : Json) : Except Unit String :=
  match merchantFieldValue ocr with
  | some (.str s) => .ok s
  | some _ => .error ()
  | none => .ok (merchantFromPatterns (stringifyChars ocr))

/-! ### Category classification (lines 336-358) -/

/-- The keyword chain of lines 338-358, evaluated on the lower-cased merchant
name and the lower-cased serialized OCR text; returns the expense account and
description, defaulting to the initial values of lines 311-312. -/
def classifyExpense (merchantLower ocrText : List Char) : String × String :=
  if containsSub merchantLower "restaurant".toList || containsSub merchantLower "cafe".toList ||
     containsSub merchantLower "food".toList || containsSub ocrText "restaurant".toList ||
     containsSub ocrText "cafe".toList || containsSub ocrText "food".toList then
    ("Meals & Entertainment", "Restaurant/Food expense")
  else if containsSub merchantLower "gas".toList || containsSub merchantLower "fuel".toList ||
     containsSub merchantLower "petrol".toList || containsSub ocrText "gas".toList ||
     containsSub ocrText "fuel".toList || containsSub ocrText "petrol".toList then
    ("Fuel & Transportation", "Fuel expense")
  else if containsSub merchantLower "office".toList || containsSub merchantLower "supplies".toList ||
     containsSub merchantLower "stationery".toList || containsSub ocrText "office".toList ||
     containsSub ocrText "supplies".toList || containsSub ocrText "stationery".toList then
    ("Office Supplies", "Office supplies")
  else if containsSub merchantLower "hotel".toList || containsSub merchantLower "accommodation".toList ||
     containsSub ocrText "hotel".toList || containsSub ocrText "accommodation".toList then
    ("Travel & Accommodation", "Travel expense")
  else if containsSub merchantLower "software".toList || containsSub merchantLower "subscription".toList ||
     containsSub merchantLower "tech".toList || containsSub ocrText "software".toList ||
     containsSub ocrText "subscription".toList || containsSub ocrText "tech".toList then
    ("IT & Software", "Software/IT expense")
  else ("General Expenses", "Expense Transaction (OCR processed)")

/-! ### The fallback journal builder (lines 287-415) -/

/-- The VAT indicator check of line 290 on the lower-cased serialized text:
`vat`, `tax`, or the literal standard-rate string `19%`. -/
def hasVATIndicator (ocrText : List Char) : Bool :=
  containsSub ocrText "vat".toList || containsSub ocrText "tax".toList ||
  containsSub ocrText "19%".toList

/-- `parseFloat(x.toFixed(2))`: round to 2 decimals, ties resolved upward on
the scaled value exactly as `toFixed` specifies. -/
def round2 (q : ℚ) : ℚ := (⌊100 * q + 1/2⌋ : ℤ) / 100

/-- `round2` lifted over NaN (`NaN.toFixed(2)` is `"NaN"`, which `parseFloat`
turns back into NaN). -/
def round2J (x : Option ℚ) : Option ℚ := x.map round2

def intChars (n : Int) : List Char :=
  if n < 0 then '-' :: natChars n.natAbs else natChars n.natAbs

/-- `toFixed(0)`. -/
def toFixed0 (q : ℚ) : String := String.mk (intChars ⌊q + 1/2⌋)

/-- The template literal of line 378. -/
def vatLineDescription (r : ℚ) : String := "VAT " ++ toFixed0 (r * 100) ++ "%"

structure LedgerLine where
  type : String
  account : String
  amount : Option ℚ
  description : String
deriving Inhabited

structure LineItem where
  description : String
  quantity : ℚ
  unitPrice : Option ℚ
  total : Option ℚ
  vatRate : ℚ
  category : String
deriving Inhabited

structure VatBreakdown where
  netAmount : Option ℚ
  vatAmount : Option ℚ
  grossAmount : Option ℚ
  vatRate : ℚ
deriving Inhabited

structure JournalEntry where
  date : String
  description : String
  reference : String
  merchant : String
  entries : List LedgerLine
  lineItems : List LineItem
  vatBreakdown : VatBreakdown
  totalDebit : Option ℚ
  totalCredit : Option ℚ
deriving Inhabited

/-- The body of `createFallbackJournalEntry` once the merchant string is in
hand: the VAT split of lines 288-306, the classification of lines 336-358 and
the object literal of lines 362-414.  `amount` is the extracted gross amount
(`none` = NaN). -/
def buildEntry (ocr : Json) (amount : Option ℚ) (date : String) (merchant : String) :
    JournalEntry :=
  let ocrText := lowerList (stringifyChars ocr)
  let hasVAT := hasVATIndicator ocrText
  let netAmount : Option ℚ := if hasVAT then amount.map (fun a => a / (119/100)) else amount
  let vatAmount : Option ℚ := if hasVAT then amount.map (fun a => a - a / (119/100)) else some 0
  let vatRate : ℚ := if hasVAT then 19/100 else 0
  let cls := classifyExpense (lowerList merchant.toList) ocrText
  let vatPositive : Bool := match vatAmount with | some v => decide (0 < v) | none => false
  let entries : List LedgerLine :=
    ⟨"debit", cls.1, round2J netAmount, cls.2⟩ ::
    ((if hasVAT && vatPositive then
        [⟨"debit", "VAT Input Tax", round2J vatAmount, vatLineDescription vatRate⟩]
      else []) ++
     [⟨"credit", "Cash/Bank Account", round2J amount, "Payment"⟩])
  { date := date
    description := merchant ++ " - " ++ cls.2
    reference := "AUTO-GENERATED"
    merchant := merchant
    entries := entries
    lineItems := [⟨cls.2, 1, round2J netAmount, round2J netAmount, vatRate, cls.1⟩]
    vatBreakdown := ⟨round2J netAmount, round2J vatAmount, round2J amount, vatRate⟩
    totalDebit := round2J amount
    totalCredit := round2J amount }

/-- `createFallbackJournalEntry(ocrData, amount, date)` (lines 287-415).  The
merchant resolution is the only step that can throw (a non-string truthy
merchant field hits `merchant.toLowerCase()`); everything else is the pure
record above. -/
def createFallbackJournalEntry (ocr : Json) (amount : Option ℚ) (date : String) :
    Except Unit JournalEntry :=
  (resolveMerchant ocr).map (buildEntry ocr amount date)

/-! ### Response parsing of the generative path (lines 527-557) -/

/-- One pass of `replace(/tok\s*/g, "")` for a literal token followed by
greedy whitespace. -/
def stripFencesPassF : Nat → List Char → List Char → List Char
  | 0, _, _ => []
  | f + 1, tok, cs =>
    if tok.isPrefixOf cs then stripFencesPassF f tok (dropJsWs (cs.drop tok.length))
    else
      match cs with
      | [] => []
      | c :: rest => c :: stripFencesPassF f tok rest

/-- Line 536: remove markdown fences, first every ```` ```json ```` (with
trailing whitespace), then every ```` ``` ````. -/
def stripFences (cs : List Char) : List Char :=
  let p1 := stripFencesPassF (cs.length + 1) "```json".toList cs
  stripFencesPassF (p1.length + 1) "```".toList p1

def dropUntilBrace : List Char → Option (List Char)
  | [] => none
  | '{' :: r => some ('{' :: r)
  | _ :: r => dropUntilBrace r

def dropUntilClose : List Char → Option (List Char)
  | [] => none
  | '}' :: r => some ('}' :: r)
  | _ :: r => dropUntilClose r

/-- The greedy `\{[\s\S]*\}` of line 542: from the first opening brace to the
last closing brace after it, if both exist. -/
def braceSpan (cs : List Char) : Option (List Char) :=
  match dropUntilBrace cs with
  | none => none
  | some tail =>
    match dropUntilClose tail.reverse with
    | none => none
    | some revSpan => some revSpan.reverse

/-- The three-stage response recovery of lines 527-557: parse the raw response;
failing that, strip fences and reparse; failing that, parse the brace span of
the cleaned text.  `none` models the `throw` after all three stages fail. -/
def parseJournalResponse (r : String) : Option Json :=
  match jsonParse r with
  | some j => some j
  | none =>
    let cleaned := stripFences r.toList
    match jsonParse (String.mk cleaned) with
    | some j => some j
    | none =>
      match braceSpan cleaned with
      | some span => jsonParse (String.mk span)
      | none => none

/-! ### The derivation orchestrator `generateJournalEntry` (lines 418-570) -/

/-- Which value `generateJournalEntry` resolves with: the object parsed from
the model response, or the deterministic fallback entry. -/
inductive JEResult where
  | parsed (j : Json)
  | fallback (e : JournalEntry)

/-- The catch block of lines 560-569: re-extract amount and date from the same
OCR result (current date if none extractable) and build the fallback entry.
An exception from the builder escapes the function. -/
def fallbackResult (ocr : Json) (now : String) : Except Unit JEResult :=
  (createFallbackJournalEntry ocr (extractAmountFromOCR ocr)
      ((extractDateFromOCR ocr).getD now)).map .fallback

/-- `generateJournalEntry(ocrData)`: a failed chat call (`resp = none`) or a
response that defeats all three parsing stages lands in the catch block; a
response that parses is resolved with the parsed object as is. -/
def generateJournalEntry (ocr : Json) (resp : Option String) (now : String) :
    Except Unit JEResult :=
  match resp with
  | none => fallbackResult ocr now
  | some r =>
    match parseJournalResponse r with
    | some j => .ok (.parsed j)
    | none => fallbackResult ocr now

/-! ### Specification-side definitions used to state the claims -/

/-- The classification rule table as the specification presents it: an ordered
list of keyword lists with the account and description each rule yields. -/
def exRules : List (List String × String × String) :=
  [(["restaurant", "cafe", "food"], "Meals & Entertainment", "Restaurant/Food expense"),
   (["gas", "fuel", "petrol"], "Fuel & Transportation", "Fuel expense"),
   (["office", "supplies", "stationery"], "Office Supplies", "Office supplies"),
   (["hotel", "accommodation"], "Travel & Accommodation", "Travel expense"),
   (["software", "subscription", "tech"], "IT & Software", "Software/IT expense")]

/-- A rule fires when any of its keywords occurs in the lower-cased merchant
name or in the lower-cased OCR text. -/
def ruleHit (merchantLower ocrText : List Char) (kws : List String) : Bool :=
  kws.any fun k => containsSub merchantLower k.toList || containsSub ocrText k.toList

/-- First-matching-rule semantics over the ordered rule table, with the
default category when no rule fires. -/
def ruleFirstMatch (merchantLower ocrText : List Char) : String × String :=
  match exRules.find? (fun rule => ruleHit merchantLower ocrText rule.1) with
  | some rule => rule.2
  | none => ("General Expenses", "Expense Transaction (OCR processed)")

/-- NaN-propagating addition (`a + b` on JavaScript numbers). -/
def jsAddOpt : Option ℚ → Option ℚ → Option ℚ
  | some a, some b => some (a + b)
  | _, _ => none

/-- Sum of the amounts of the ledger lines of one type (the "sum over entries
by type" of the specification's balance invariant). -/
def sumAmountsByType (t : String) (es : List LedgerLine) : Option ℚ :=
  es.foldr (fun l acc => if l.type = t then jsAddOpt l.amount acc else acc) (some 0)

/-- The date field of a fallback-built result (a probe used to separate two
orchestrator results). -/
def resultDate : Except Unit JEResult → String
  | .ok (.fallback e) => e.date
  | _ => ""

/-- Concrete OCR result for the balance witness: a numeric total and nothing
else. -/
def ocrW1 : Json := Json.obj [("total", Json.num ⟨255, 1⟩)]

/-- The entry the orchestrator builds for `ocrW1` when the model call fails. -/
def eW1 : JournalEntry :=
  match generateJournalEntry ocrW1 none "01/01/2024" with
  | .ok (.fallback e) => e
  | _ => default

/-- Concrete OCR result carrying a parseable date field. -/
def ocrW9 : Json := Json.obj [("date", Json.str "2023-01-15")]

/-! ### Rounding-error lemmas for the 2-decimal output rounding -/

/-- `toFixed(2)` rounding moves a value by at most half a cent. -/
theorem round2_err (x : ℚ) : |round2 x - x| ≤ 1/200 := by
  have h1 : ((⌊100 * x + 1/2⌋ : ℤ) : ℚ) ≤ 100 * x + 1/2 := Int.floor_le _
  have h2 : 100 * x + 1/2 - 1 < ((⌊100 * x + 1/2⌋ : ℤ) : ℚ) := Int.sub_one_lt_floor _
  rw [round2, abs_le]
  constructor
  · linarith
  · linarith

/-- Rounding two summands separately lands within one cent of rounding their
sum (the gap is an integer number of cents of size at most one). -/
theorem round2_add_err (x y : ℚ) : |round2 x + round2 y - round2 (x + y)| ≤ 1/100 := by
  have h1 : ((⌊100 * x + 1/2⌋ : ℤ) : ℚ) ≤ 100 * x + 1/2 := Int.floor_le _
  have h2 : 100 * x + 1/2 - 1 < ((⌊100 * x + 1/2⌋ : ℤ) : ℚ) := Int.sub_one_lt_floor _
  have h3 : ((⌊100 * y + 1/2⌋ : ℤ) : ℚ) ≤ 100 * y + 1/2 := Int.floor_le _
  have h4 : 100 * y + 1/2 - 1 < ((⌊100 * y + 1/2⌋ : ℤ) : ℚ) := Int.sub_one_lt_floor _
  have h5 : ((⌊100 * (x + y) + 1/2⌋ : ℤ) : ℚ) ≤ 100 * (x + y) + 1/2 := Int.floor_le _
  have h6 : 100 * (x + y) + 1/2 - 1 < ((⌊100 * (x + y) + 1/2⌋ : ℤ) : ℚ) := Int.sub_one_lt_floor _
  have e : round2 x + round2 y - round2 (x + y) =
      ((⌊100 * x + 1/2⌋ + ⌊100 * y + 1/2⌋ - ⌊100 * (x + y) + 1/2⌋ : ℤ) : ℚ) / 100 := by
    rw [round2, round2, round2]
    push_cast
    ring
  have hub : ((⌊100 * x + 1/2⌋ + ⌊100 * y + 1/2⌋ - ⌊100 * (x + y) + 1/2⌋ : ℤ) : ℚ) < 2 := by
    push_cast
    linarith
  have hlb : (-2 : ℚ) < ((⌊100 * x + 1/2⌋ + ⌊100 * y + 1/2⌋ - ⌊100 * (x + y) + 1/2⌋ : ℤ) : ℚ) := by
    push_cast
    linarith
  have hub' : (⌊100 * x + 1/2⌋ + ⌊100 * y + 1/2⌋ - ⌊100 * (x + y) + 1/2⌋ : ℤ) < 2 := by
    exact_mod_cast hub
  have hlb' : (-2 : ℤ) < ⌊100 * x + 1/2⌋ + ⌊100 * y + 1/2⌋ - ⌊100 * (x + y) + 1/2⌋ := by
    exact_mod_cast hlb
  have habs : |((⌊100 * x + 1/2⌋ + ⌊100 * y + 1/2⌋ - ⌊100 * (x + y) + 1/2⌋ : ℤ) : ℚ)| ≤ 1 := by
    have : |(⌊100 * x + 1/2⌋ + ⌊100 * y + 1/2⌋ - ⌊100 * (x + y) + 1/2⌋ : ℤ)| ≤ 1 :=
      abs_le.mpr ⟨by omega, by omega⟩
    exact_mod_cast this
  rw [e, abs_div, abs_of_pos (by norm_num : (0 : ℚ) < 100)]
  linarith

/-- `round2` fixes zero. -/
theorem round2_zero : round2 0 = 0 := by
  norm_num [round2]

/-! ### Inversion of the orchestrator's fallback path -/

/-- If the orchestrator resolved with a fallback entry, that entry is the
builder's output for the extracted amount, the extracted-or-current date and
some successfully resolved merchant string. -/
theorem fallbackResult_inv (ocr : Json) (now : String) (e : JournalEntry)
    (h : fallbackResult ocr now = .ok (.fallback e)) :
    ∃ m, resolveMerchant ocr = .ok m ∧
      e = buildEntry ocr (extractAmountFromOCR ocr) ((extractDateFromOCR ocr).getD now) m := by
  unfold fallbackResult createFallbackJournalEntry at h
  cases hm : resolveMerchant ocr with
  | error u => rw [hm] at h; cases h
  | ok m =>
    rw [hm] at h
    simp only [Except.map] at h
    cases h
    exact ⟨m, rfl, rfl⟩

/-- Any fallback result of `generateJournalEntry` comes from the catch block:
builder output on the extracted fields of the same OCR result. -/
theorem generate_fallback_inv (ocr : Json) (resp : Option String) (now : String)
    (e : JournalEntry) (h : generateJournalEntry ocr resp now = .ok (.fallback e)) :
    ∃ m, resolveMerchant ocr = .ok m ∧
      e = buildEntry ocr (extractAmountFromOCR ocr) ((extractDateFromOCR ocr).getD now) m := by
  cases resp with
  | none => exact fallbackResult_inv ocr now e h
  | some r =>
    have h' : (match parseJournalResponse r with
        | some j => Except.ok (JEResult.parsed j)
        | none => fallbackResult ocr now) = Except.ok (JEResult.fallback e) := h
    cases hp : parseJournalResponse r with
    | some j => rw [hp] at h'; cases h'
    | none => rw [hp] at h'; exact fallbackResult_inv ocr now e h'

/-! ### Claim theorems -/

/-- C1 (amended): for every OcrResult, an entry that `generateJournalEntry`
returns via the fallback path has `totalDebit = totalCredit` (both are the
extracted amount rounded to 2 decimals, so in particular they agree within
0.01 whenever the extracted amount is a number); a generative-path success is
returned with no defensive balance or required-field check, so the balance
invariant is not guaranteed on that path (see the counterexample). -/
theorem C1_amended_balance (ocr : Json) (resp : Option String) (now : String)
    (e : JournalEntry) (h : generateJournalEntry ocr resp now = .ok (.fallback e)) :
    e.totalDebit = e.totalCredit ∧
    e.totalDebit = round2J (extractAmountFromOCR ocr) ∧
    ∀ a : ℚ, extractAmountFromOCR ocr = some a → e.totalDebit = some (round2 a) := by
  obtain ⟨m, hm, he⟩ := generate_fallback_inv ocr resp now e h
  subst he
  refine ⟨rfl, rfl, ?_⟩
  intro a ha
  rw [show (buildEntry ocr (extractAmountFromOCR ocr) ((extractDateFromOCR ocr).getD now)
        m).totalDebit = round2J (extractAmountFromOCR ocr) from rfl, ha]
  rfl

/-- C1 witness: the balance theorem applied to the concrete OCR result
`{total: 25.5}` with a failed model call. -/
theorem C1_amended_balance_witness :
    eW1.totalDebit = eW1.totalCredit ∧
    eW1.totalDebit = round2J (extractAmountFromOCR ocrW1) ∧
    ∀ a : ℚ, extractAmountFromOCR ocrW1 = some a → eW1.totalDebit = some (round2 a) :=
  C1_amended_balance ocrW1 none "01/01/2024" eW1 (by rfl)

/-- C1 counterexample: a model response parsing to
`{"totalDebit": 100, "totalCredit": 50}` is returned as the derivation result
with totals 50 apart, so the claim that `generateJournalEntry` always returns
an entry balanced within 0.01, checked defensively before returning, fails. -/
theorem C1_counterexample :
    generateJournalEntry (Json.obj [])
        (some "\x7b\"totalDebit\": 100, \"totalCredit\": 50\x7d") "01/01/2024" =
      .ok (.parsed (Json.obj [("totalDebit", Json.num ⟨100, 0⟩),
                              ("totalCredit", Json.num ⟨50, 0⟩)])) ∧
    ¬ |JNum.toRat ⟨100, 0⟩ - JNum.toRat ⟨50, 0⟩| ≤ (1/100 : ℚ) :=
  ⟨rfl, by norm_num [JNum.toRat]⟩

/-- C2: the orchestrator is NOT total.  For the OCR result
`{"establishment": 42}` — a value the loosely-typed OcrResult contract admits —
a failed model call sends the catch block into `createFallbackJournalEntry`,
where the truthy non-string merchant field reaches `merchant.toLowerCase()`
and throws a TypeError; the caller receives a processing failure instead of a
journal entry. -/
theorem C2_fallback_throws :
    generateJournalEntry (Json.obj [("establishment", Json.num ⟨42, 0⟩)]) none
      "01/01/2024" = .error () := by
  rfl

/-- C7: the amount extractor does NOT return the 10.00 default on every
OCR result without numeric content.  The two-field object
`{"a": "x", "b": "y"}` serializes with a comma, the scan regex
`[\d,]+\.?\d{0,2}` matches that bare comma, `parseFloat("")` is NaN and
`Math.max` propagates it, so the extractor returns NaN (`none`) — not 10.00.
Only a serialization with neither digits nor commas (third conjunct) reaches
the documented default. -/
theorem C7_default_amount :
    extractAmountFromOCR (Json.obj [("a", Json.str "x"), ("b", Json.str "y")]) = none ∧
    (none : Option ℚ) ≠ some 10 ∧
    extractAmountFromOCR (Json.obj [("note", Json.str "hello")]) = some 10 :=
  ⟨rfl, by simp, rfl⟩

/-- C10: whenever one of the three parsing stages of the generative path
succeeds, the orchestrator resolves with exactly the parsed object — no
balance check, no required-field check and no schema validation intervene
between parsing and returning. -/
theorem C10_parsed_returned_unchanged (ocr : Json) (now r : String) (j : Json)
    (h : parseJournalResponse r = some j) :
    generateJournalEntry ocr (some r) now = .ok (.parsed j) := by
  have h' : generateJournalEntry ocr (some r) now =
      (match parseJournalResponse r with
       | some j => Except.ok (JEResult.parsed j)
       | none => fallbackResult ocr now) := rfl
  rw [h', h]

/-- C10 witness: a minimal response object is handed back verbatim. -/
theorem C10_parsed_returned_unchanged_witness :
    generateJournalEntry (Json.obj []) (some "\x7b\"x\": 3\x7d") "01/01/2024" =
      .ok (.parsed (Json.obj [("x", Json.num ⟨3, 0⟩)])) :=
  C10_parsed_returned_unchanged (Json.obj []) "01/01/2024" "\x7b\"x\": 3\x7d"
    (Json.obj [("x", Json.num ⟨3, 0⟩)]) (by rfl)

/-- C9 counterexample: two invocations of the fallback derivation on the
equal OCR input `{}` at different wall-clock dates return different entries
(the date field is the current date when no date is extractable), so one
derivation invocation is not a pure function of the OcrResult and the
process-wide configuration alone. -/
theorem C9_counterexample :
    generateJournalEntry (Json.obj []) none "01/01/2024" ≠
      generateJournalEntry (Json.obj []) none "02/01/2024" := by
  intro h
  have h2 := congrArg resultDate h
  rw [show resultDate (generateJournalEntry (Json.obj []) none "01/01/2024") =
        "01/01/2024" from rfl,
      show resultDate (generateJournalEntry (Json.obj []) none "02/01/2024") =
        "02/01/2024" from rfl] at h2
  exact absurd h2 (by decide)

/-- C9 (amended): a derivation invocation is a pure function of the OcrResult,
the process-wide configuration and the current date, and the current date is
used only as the fallback for a missing OCR date: whenever date extraction
succeeds, invocations at different current dates agree exactly. -/
theorem C9_amended_purity (ocr : Json) (resp : Option String) (now now' : String)
    (h : (extractDateFromOCR ocr).isSome = true) :
    generateJournalEntry ocr resp now = generateJournalEntry ocr resp now' := by
  obtain ⟨s, hs⟩ := Option.isSome_iff_exists.mp h
  unfold generateJournalEntry fallbackResult
  rw [hs]
  cases resp <;> simp [Option.getD]

/-- C9 witness: with a parseable `date` field the two clock dates give the
same result. -/
theorem C9_amended_purity_witness :
    generateJournalEntry ocrW9 none "01/01/2024" =
      generateJournalEntry ocrW9 none "02/01/2024" :=
  C9_amended_purity ocrW9 none "01/01/2024" "02/01/2024" (by rfl)

/-- C6: the generative path's response parsing tries exactly three stages in
order — raw parse, fence-stripped parse, brace-span parse of the stripped
text — succeeds on fenced/prose-wrapped JSON without reaching the fallback,
and produces an error (`none`, the modelled throw) exactly when all three
stages fail. -/
theorem C6_parse_stages :
    (∀ (r : String) (j : Json), jsonParse r = some j → parseJournalResponse r = some j) ∧
    (∀ (r : String) (j : Json), jsonParse r = none →
        jsonParse (String.mk (stripFences r.toList)) = some j →
        parseJournalResponse r = some j) ∧
    (∀ r : String, jsonParse r = none →
        jsonParse (String.mk (stripFences r.toList)) = none →
        parseJournalResponse r =
          (braceSpan (stripFences r.toList)).bind (fun span => jsonParse (String.mk span))) ∧
    (∀ r : String, parseJournalResponse r = none ↔
        (jsonParse r = none ∧ jsonParse (String.mk (stripFences r.toList)) = none ∧
         (braceSpan (stripFences r.toList)).bind (fun span => jsonParse (String.mk span)) = none)) ∧
    parseJournalResponse "```json\n\x7b\"a\": 1\x7d\n```" =
      some (Json.obj [("a", Json.num ⟨1, 0⟩)]) ∧
    jsonParse "```json\n\x7b\"a\": 1\x7d\n```" = none ∧
    (∀ (ocr : Json) (now : String),
        generateJournalEntry ocr (some "```json\n\x7b\"a\": 1\x7d\n```") now =
          .ok (.parsed (Json.obj [("a", Json.num ⟨1, 0⟩)]))) ∧
    parseJournalResponse "Sure! ```json\n\x7b\"b\": 2\x7d\n``` Done." =
      some (Json.obj [("b", Json.num ⟨2, 0⟩)]) := by
  refine ⟨?_, ?_, ?_, ?_, rfl, rfl, fun ocr now => rfl, rfl⟩
  · intro r j h
    unfold parseJournalResponse
    rw [h]
  · intro r j h1 h2
    unfold parseJournalResponse
    rw [h1]
    dsimp only
    rw [h2]
  · intro r h1 h2
    unfold parseJournalResponse
    rw [h1]
    dsimp only
    rw [h2]
    dsimp only
    cases hb : braceSpan (stripFences r.toList) <;> simp [hb]
  · intro r
    unfold parseJournalResponse
    cases h1 : jsonParse r with
    | some j => dsimp only; simp
    | none =>
      dsimp only
      cases h2 : jsonParse (String.mk (stripFences r.toList)) with
      | some j => dsimp only; simp
      | none =>
        dsimp only
        cases hb : braceSpan (stripFences r.toList) with
        | none => dsimp only; simp
        | some span => dsimp only; simp

/-- C6 witness: the first stage applied to a plain JSON object. -/
theorem C6_parse_stages_witness :
    parseJournalResponse "\x7b\"w\": 7\x7d" = some (Json.obj [("w", Json.num ⟨7, 0⟩)]) :=
  C6_parse_stages.1 "\x7b\"w\": 7\x7d" (Json.obj [("w", Json.num ⟨7, 0⟩)]) (by rfl)

/-- C8: the category classifier implements first-matching-rule semantics over
the ordered rule table (so with two firing rules the earlier-declared one
wins), text with both "cafe" and "office" classifies as Meals & Entertainment
rather than Office Supplies, and text firing no rule gets the default
account. -/
theorem C8_classifier_order :
    (∀ merchantLower ocrText : List Char,
        classifyExpense merchantLower ocrText = ruleFirstMatch merchantLower ocrText) ∧
    (classifyExpense (lowerList "Unknown Merchant".toList) "cafe office".toList).1 =
      "Meals & Entertainment" ∧
    (classifyExpense (lowerList "Unknown Merchant".toList) "cafe office".toList).1 ≠
      "Office Supplies" ∧
    (classifyExpense (lowerList "Unknown Merchant".toList) "zzz".toList).1 =
      "General Expenses" := by
  refine ⟨?_, by decide, by decide, by decide⟩
  intro ml t
  have e1 : ruleHit ml t ["restaurant", "cafe", "food"] =
      (containsSub ml "restaurant".toList || containsSub ml "cafe".toList ||
       containsSub ml "food".toList || containsSub t "restaurant".toList ||
       containsSub t "cafe".toList || containsSub t "food".toList) := by
    simp only [ruleHit, List.any_cons, List.any_nil, Bool.or_false]
    cases containsSub ml "restaurant".toList <;> cases containsSub ml "cafe".toList <;>
      cases containsSub ml "food".toList <;> cases containsSub t "restaurant".toList <;>
      cases containsSub t "cafe".toList <;> cases containsSub t "food".toList <;> rfl
  have e2 : ruleHit ml t ["gas", "fuel", "petrol"] =
      (containsSub ml "gas".toList || containsSub ml "fuel".toList ||
       containsSub ml "petrol".toList || containsSub t "gas".toList ||
       containsSub t "fuel".toList || containsSub t "petrol".toList) := by
    simp only [ruleHit, List.any_cons, List.any_nil, Bool.or_false]
    cases containsSub ml "gas".toList <;> cases containsSub ml "fuel".toList <;>
      cases containsSub ml "petrol".toList <;> cases containsSub t "gas".toList <;>
      cases containsSub t "fuel".toList <;> cases containsSub t "petrol".toList <;> rfl
  have e3 : ruleHit ml t ["office", "supplies", "stationery"] =
      (containsSub ml "office".toList || containsSub ml "supplies".toList ||
       containsSub ml "stationery".toList || containsSub t "office".toList ||
       containsSub t "supplies".toList || containsSub t "stationery".toList) := by
    simp only [ruleHit, List.any_cons, List.any_nil, Bool.or_false]
    cases containsSub ml "office".toList <;> cases containsSub ml "supplies".toList <;>
      cases containsSub ml "stationery".toList <;> cases containsSub t "office".toList <;>
      cases containsSub t "supplies".toList <;> cases containsSub t "stationery".toList <;> rfl
  have e4 : ruleHit ml t ["hotel", "accommodation"] =
      (containsSub ml "hotel".toList || containsSub ml "accommodation".toList ||
       containsSub t "hotel".toList || containsSub t "accommodation".toList) := by
    simp only [ruleHit, List.any_cons, List.any_nil, Bool.or_false]
    cases containsSub ml "hotel".toList <;> cases containsSub ml "accommodation".toList <;>
      cases containsSub t "hotel".toList <;> cases containsSub t "accommodation".toList <;> rfl
  have e5 : ruleHit ml t ["software", "subscription", "tech"] =
      (containsSub ml "software".toList || containsSub ml "subscription".toList ||
       containsSub ml "tech".toList || containsSub t "software".toList ||
       containsSub t "subscription".toList || containsSub t "tech".toList) := by
    simp only [ruleHit, List.any_cons, List.any_nil, Bool.or_false]
    cases containsSub ml "software".toList <;> cases containsSub ml "subscription".toList <;>
      cases containsSub ml "tech".toList <;> cases containsSub t "software".toList <;>
      cases containsSub t "subscription".toList <;> cases containsSub t "tech".toList <;> rfl
  unfold classifyExpense ruleFirstMatch exRules
  rw [← e1, ← e2, ← e3, ← e4, ← e5]
  cases h1 : ruleHit ml t ["restaurant", "cafe", "food"] <;>
    cases h2 : ruleHit ml t ["gas", "fuel", "petrol"] <;>
      cases h3 : ruleHit ml t ["office", "supplies", "stationery"] <;>
        cases h4 : ruleHit ml t ["hotel", "accommodation"] <;>
          cases h5 : ruleHit ml t ["software", "subscription", "tech"] <;>
            simp [List.find?, h1, h2, h3, h4, h5]

/-- C3: the VAT computation treats VAT as present exactly when the lower-cased
serialized OCR text contains "vat", "tax" or the literal "19%"; when present
the stored breakdown is `net = round2(g/1.19)`, `vat = round2(g - g/1.19)`,
`rate = 0.19`, when absent it is `net = round2 g`, `vat = 0`, `rate = 0` (the
2-decimal rounding is the specified output rounding), and in both cases the
stored net and VAT amounts add up to the gross amount within 0.01. -/
theorem C3_vat_policy (g : ℚ) (hg : 0 ≤ g) (ocr : Json) (d m : String) :
    ((buildEntry ocr (some g) d m).vatBreakdown =
      if hasVATIndicator (lowerList (stringifyChars ocr)) then
        ⟨some (round2 (g / (119/100))), some (round2 (g - g / (119/100))),
         some (round2 g), 19/100⟩
      else ⟨some (round2 g), some 0, some (round2 g), 0⟩) ∧
    (hasVATIndicator (lowerList (stringifyChars ocr)) =
      (containsSub (lowerList (stringifyChars ocr)) "vat".toList ||
       containsSub (lowerList (stringifyChars ocr)) "tax".toList ||
       containsSub (lowerList (stringifyChars ocr)) "19%".toList)) ∧
    (∀ n v : ℚ,
      (buildEntry ocr (some g) d m).vatBreakdown.netAmount = some n →
      (buildEntry ocr (some g) d m).vatBreakdown.vatAmount = some v →
      |n + v - g| ≤ 1/100) := by
  refine ⟨?_, rfl, ?_⟩
  · by_cases h : hasVATIndicator (lowerList (stringifyChars ocr))
    · simp [buildEntry, h, round2J]
    · simp [buildEntry, h, round2J, round2_zero]
  · intro n v hn hv
    by_cases h : hasVATIndicator (lowerList (stringifyChars ocr))
    · simp [buildEntry, h, round2J] at hn hv
      subst hn
      subst hv
      have h1 := round2_err (g / (119/100))
      have h2 := round2_err (g - g / (119/100))
      have key : round2 (g / (119/100)) + round2 (g - g / (119/100)) - g =
          (round2 (g / (119/100)) - g / (119/100)) +
          (round2 (g - g / (119/100)) - (g - g / (119/100))) := by ring
      rw [key]
      have tri := abs_add (round2 (g / (119/100)) - g / (119/100))
        (round2 (g - g / (119/100)) - (g - g / (119/100)))
      linarith
    · simp [buildEntry, h, round2J] at hn hv
      subst hn
      subst hv
      have h1 := round2_err g
      rw [round2_zero]
      have e : round2 g + 0 - g = round2 g - g := by ring
      rw [e]
      linarith

/-- C3 witness: gross 119.00 with an explicit "vat" token splits into
100.00 net and 19.00 VAT at rate 0.19. -/
theorem C3_vat_policy_witness :
    ((buildEntry (Json.obj [("note", Json.str "vat")]) (some 119) "01/01/2024"
        "Test").vatBreakdown =
      if hasVATIndicator (lowerList (stringifyChars (Json.obj [("note", Json.str "vat")]))) then
        ⟨some (round2 ((119 : ℚ) / (119/100))), some (round2 ((119 : ℚ) - 119 / (119/100))),
         some (round2 (119 : ℚ)), 19/100⟩
      else ⟨some (round2 (119 : ℚ)), some 0, some (round2 (119 : ℚ)), 0⟩) ∧
    (hasVATIndicator (lowerList (stringifyChars (Json.obj [("note", Json.str "vat")]))) =
      (containsSub (lowerList (stringifyChars (Json.obj [("note", Json.str "vat")]))) "vat".toList ||
       containsSub (lowerList (stringifyChars (Json.obj [("note", Json.str "vat")]))) "tax".toList ||
       containsSub (lowerList (stringifyChars (Json.obj [("note", Json.str "vat")]))) "19%".toList)) ∧
    (∀ n v : ℚ,
      (buildEntry (Json.obj [("note", Json.str "vat")]) (some 119) "01/01/2024"
          "Test").vatBreakdown.netAmount = some n →
      (buildEntry (Json.obj [("note", Json.str "vat")]) (some 119) "01/01/2024"
          "Test").vatBreakdown.vatAmount = some v →
      |n + v - 119| ≤ 1/100) :=
  C3_vat_policy 119 (by norm_num) (Json.obj [("note", Json.str "vat")]) "01/01/2024" "Test"

/-- C4: the fallback builder's ledger is exactly one debit line for the
rounded net amount in the classified account, one VAT input-tax debit line
present precisely when the computed VAT amount is positive, and one credit
line for the rounded gross amount against "Cash/Bank Account", in that
order. -/
theorem C4_ledger_lines (ocr : Json) (a : ℚ) (d m : String) :
    (buildEntry ocr (some a) d m).entries =
      ⟨"debit",
        (classifyExpense (lowerList m.toList) (lowerList (stringifyChars ocr))).1,
        some (round2 (if hasVATIndicator (lowerList (stringifyChars ocr)) then
          a / (119/100) else a)),
        (classifyExpense (lowerList m.toList) (lowerList (stringifyChars ocr))).2⟩ ::
      ((if 0 < (if hasVATIndicator (lowerList (stringifyChars ocr)) then
            a - a / (119/100) else 0) then
          [⟨"debit", "VAT Input Tax", some (round2 (a - a / (119/100))),
            vatLineDescription (19/100)⟩]
        else []) ++
       [⟨"credit", "Cash/Bank Account", some (round2 a), "Payment"⟩]) := by
  by_cases h : hasVATIndicator (lowerList (stringifyChars ocr))
  · by_cases h2 : (0:ℚ) < a - a / (119/100)
    · simp [buildEntry, h, h2, round2J]
    · simp [buildEntry, h, h2, round2J]
  · simp [buildEntry, h, round2J]

/-- C5 (amended): for every build with a non-negative numeric amount,
`totalDebit`, `totalCredit`, the sum of the credit-line amounts and
`vatBreakdown.grossAmount` are all exactly the rounded gross amount; the sum
of the debit-line amounts equals that total within 0.01 — exactly when no VAT
is detected, but when the net and VAT debit lines are rounded separately it
can fall one cent short of the rounded gross (see the counterexample). -/
theorem C5_amended_sums (ocr : Json) (a : ℚ) (ha : 0 ≤ a) (d m : String) :
    (buildEntry ocr (some a) d m).totalDebit = some (round2 a) ∧
    (buildEntry ocr (some a) d m).totalCredit = some (round2 a) ∧
    sumAmountsByType "credit" (buildEntry ocr (some a) d m).entries = some (round2 a) ∧
    (buildEntry ocr (some a) d m).vatBreakdown.grossAmount = some (round2 a) ∧
    (∃ s : ℚ, sumAmountsByType "debit" (buildEntry ocr (some a) d m).entries = some s ∧
        |s - round2 a| ≤ 1/100) ∧
    (hasVATIndicator (lowerList (stringifyChars ocr)) = false →
        sumAmountsByType "debit" (buildEntry ocr (some a) d m).entries = some (round2 a)) := by
  refine ⟨rfl, rfl, ?_, rfl, ?_, ?_⟩
  · by_cases h : hasVATIndicator (lowerList (stringifyChars ocr))
    · by_cases h2 : (0:ℚ) < a - a / (119/100)
      · simp [sumAmountsByType, buildEntry, h, h2, jsAddOpt, round2J]
      · simp [sumAmountsByType, buildEntry, h, h2, jsAddOpt, round2J]
    · simp [sumAmountsByType, buildEntry, h, jsAddOpt, round2J]
  · by_cases h : hasVATIndicator (lowerList (stringifyChars ocr))
    · by_cases h2 : (0:ℚ) < a - a / (119/100)
      · refine ⟨round2 (a / (119/100)) + round2 (a - a / (119/100)), ?_, ?_⟩
        · simp [sumAmountsByType, buildEntry, h, h2, jsAddOpt, round2J]
        · have key := round2_add_err (a / (119/100)) (a - a / (119/100))
          have e : a / (119/100) + (a - a / (119/100)) = a := by ring
          rw [e] at key
          have e2 : round2 (a / (119/100)) + round2 (a - a / (119/100)) - round2 a =
              round2 (a / (119/100)) + round2 (a - a / (119/100)) - round2 a := rfl
          linarith [abs_le.mp key]
      · have hx : a - a / (119/100) ≤ 0 := not_lt.mp h2
        have ha0 : a = 0 := by
          have e : a - a / (119/100) = a * (19/119) := by ring
          rw [e] at hx
          nlinarith
        subst ha0
        refine ⟨round2 (0 / (119/100)), ?_, ?_⟩
        · simp [sumAmountsByType, buildEntry, h, h2, jsAddOpt, round2J]
        · norm_num [round2]
    · refine ⟨round2 a, ?_, by simp⟩
      simp [sumAmountsByType, buildEntry, h, jsAddOpt, round2J]
  · intro h
    simp [sumAmountsByType, buildEntry, h, jsAddOpt, round2J]

/-- C5 witness: the sum theorem at the concrete build for `{total: 25.5}`
(no VAT token), amount 25.5. -/
theorem C5_amended_sums_witness :
    (buildEntry ocrW1 (some (51/2)) "01/01/2024" "total").totalDebit =
      some (round2 (51/2)) ∧
    (buildEntry ocrW1 (some (51/2)) "01/01/2024" "total").totalCredit =
      some (round2 (51/2)) ∧
    sumAmountsByType "credit" (buildEntry ocrW1 (some (51/2)) "01/01/2024" "total").entries =
      some (round2 (51/2)) ∧
    (buildEntry ocrW1 (some (51/2)) "01/01/2024" "total").vatBreakdown.grossAmount =
      some (round2 (51/2)) ∧
    (∃ s : ℚ,
        sumAmountsByType "debit" (buildEntry ocrW1 (some (51/2)) "01/01/2024" "total").entries =
          some s ∧ |s - round2 (51/2)| ≤ 1/100) ∧
    (hasVATIndicator (lowerList (stringifyChars ocrW1)) = false →
        sumAmountsByType "debit" (buildEntry ocrW1 (some (51/2)) "01/01/2024" "total").entries =
          some (round2 (51/2))) :=
  C5_amended_sums ocrW1 (51/2) (by norm_num) "01/01/2024" "total"

/-- C5 counterexample: for the reachable gross amount 11.98687 with a "vat"
token, the built entry's debit lines sum to 11.98 while `totalDebit` (and the
credit line) is 11.99 — the separately rounded net (10.07) and VAT (1.91)
debit lines miss the rounded gross by one cent, refuting the claimed exact
equality between `totalDebit` and the sum of the debit-line amounts. -/
theorem C5_counterexample :
    extractAmountFromOCR (Json.obj [("total", Json.num ⟨1198687, 5⟩),
        ("note", Json.str "vat")]) = some ((1198687 : ℚ)/100000) ∧
    (createFallbackJournalEntry (Json.obj [("total", Json.num ⟨1198687, 5⟩),
          ("note", Json.str "vat")])
        (some ((1198687 : ℚ)/100000)) "01/01/2024").map
      (fun e => (sumAmountsByType "debit" e.entries, e.totalDebit)) =
      .ok (some ((1198 : ℚ)/100), some ((1199 : ℚ)/100)) ∧
    ((1198 : ℚ)/100 ≠ (1199 : ℚ)/100) := by
  refine ⟨?_, ?_, by norm_num⟩
  · rw [show extractAmountFromOCR (Json.obj [("total", Json.num ⟨1198687, 5⟩),
        ("note", Json.str "vat")]) = some (JNum.toRat ⟨1198687, 5⟩) from rfl]
    norm_num [JNum.toRat]
  · rw [createFallbackJournalEntry,
        show resolveMerchant (Json.obj [("total", Json.num ⟨1198687, 5⟩),
          ("note", Json.str "vat")]) = .ok "total" from rfl]
    have hv : hasVATIndicator (lowerList (stringifyChars (Json.obj
        [("total", Json.num ⟨1198687, 5⟩), ("note", Json.str "vat")]))) = true := by decide
    have hpos : (0:ℚ) < (1198687:ℚ)/100000 - (1198687:ℚ)/100000 / (119/100) := by norm_num
    have e1 : round2 ((1198687:ℚ)/100000 / (119/100)) = 1007/100 := by
      rw [round2]
      norm_num
    have e2 : round2 ((1198687:ℚ)/100000 - (1198687:ℚ)/100000 / (119/100)) = 191/100 := by
      rw [round2]
      norm_num
    have e3 : round2 ((1198687:ℚ)/100000) = 1199/100 := by
      rw [round2]
      norm_num
    simp [Except.map, buildEntry, hv, hpos, sumAmountsByType, jsAddOpt, round2J, e1, e2, e3]
    norm_num
